import Mathlib

/-!
Verification of the `PgManager` connection/retry state machine and the
dynamic query builder of `pyneed` (`src/pyneed/db/postgre.py`), through a
shallow embedding.  The pure query construction of `select` is embedded as
`buildSelectQuery`; the stateful lifecycle (`connect`, `cursor`, `execute`,
`reset`, `close`) is embedded as explicit state passing over `PgState`,
with the database driver abstracted by an oracle `Env` that decides the
outcome of every connection attempt and every statement execution.
-/

namespace Pyneed

/-- Maximum number of retries, `LIMIT_RETRIES = 5` in the source. -/
def LIMIT_RETRIES : Nat := 5

/-! ### Query builder (`PgManager.select`, lines 117-163) -/

/-- Python values that can appear in the `filters` argument of `select`.
`vScalar` carries the `str()` rendering of a value that is not a string,
not `None` and not iterable (an int, float or bool). -/
inductive PyVal where
  | vStr (s : String)
  | vNone
  | vIter (elems : List PyVal)
  | vScalar (s : String)

mutual

/-- Python `str()` of a value, as used by `map(str, value)` in the source;
scalars carry their own rendering, a container renders as the bracketed
comma-space join of its elements. -/
def pyStr : PyVal → String
  | .vStr s => s
  | .vNone => "None"
  | .vScalar s => s
  | .vIter es => "[" ++ String.intercalate ", " (pyStrList es) ++ "]"

/-- Python `str()` applied elementwise to a list of values. -/
def pyStrList : List PyVal → List String
  | [] => []
  | v :: vs => pyStr v :: pyStrList vs

end

/-- Rendering of one filter value into SQL text: the four-way dynamic
dispatch of `select` (lines 136-145): a string is wrapped verbatim in
single quotes, `None` becomes the unquoted literal `null`, any other
iterable becomes the parenthesized comma join of the `str()` of its
elements, and any other scalar is its plain `str()` form. -/
def renderFilterValue : PyVal → String
  | .vStr s => "'" ++ s ++ "'"
  | .vNone => "null"
  | .vIter es => "(" ++ String.intercalate "," (pyStrList es) ++ ")"
  | .vScalar s => s

/-- The `filters` argument: an insertion-ordered mapping from operator
symbol to an insertion-ordered mapping from column name to value, embedded
as a list of pairs. -/
def Filters : Type := List (String × List (String × PyVal))

/-- All filter fragments `"column op value"` collected across the two
nested loops of `select` (lines 127-147), in iteration order. -/
def filterFragments (filters : Filters) : List String :=
  filters.foldl
    (fun acc g =>
      acc ++ g.2.map (fun cv => cv.1 ++ " " ++ g.1 ++ " " ++ renderFilterValue cv.2))
    []

/-- The `columns` argument of `select`, `Union[List, str]` in the source. -/
inductive PyColumns where
  | ofList (cols : List String)
  | ofStr (s : String)
deriving Repr, DecidableEq

/-- Column clause: a list is comma-joined (line 118-119), a plain string is
used as is. -/
def renderColumns : PyColumns → String
  | .ofList cols => String.intercalate "," cols
  | .ofStr s => s

/-- The `ORDER BY` clause appended at line 157; the Python condition
`if order_by` is truthiness, so `None` and the empty string yield nothing. -/
def orderByClause : Option String → String
  | some ob => if ob = "" then "" else " ORDER BY " ++ ob
  | none => ""

/-- The `LIMIT` clause appended at line 159; the Python condition
`if limit` is truthiness, so `None` and `0` yield nothing. -/
def limitClause : Option Int → String
  | some l => if l = 0 then "" else " LIMIT " ++ toString l
  | none => ""

/-- The part of the query built before the optional clauses: column
clause, base clause, plus the WHERE clause when the joined filter
fragments are nonempty (lines 117-153). -/
def selectBase (table : String) (columns : PyColumns) (filters : Filters) : String :=
  let q0 := "SELECT " ++ renderColumns columns ++ " FROM " ++ table
  let query_filters := String.intercalate " AND " (filterFragments filters)
  if query_filters = "" then q0 else q0 ++ " WHERE " ++ query_filters

/-- The query string constructed by `PgManager.select` (lines 117-159),
line by line: base/WHERE part, then `ORDER BY random()` if `random`, then
`ORDER BY order_by` if truthy, then `DESC` if `ascending is False`, then
`LIMIT limit` if truthy.  `limit` is an optional integer so that the
Python `None` argument is representable. -/
def buildSelectQuery (table : String) (columns : PyColumns) (filters : Filters)
    (order_by : Option String) (ascending : Bool) (limit : Option Int)
    (random : Bool) : String :=
  let q1 := selectBase table columns filters
  let q2 := if random then q1 ++ " ORDER BY random()" else q1
  let q3 := match order_by with
    | some ob => if ob = "" then q2 else q2 ++ " ORDER BY " ++ ob
    | none => q2
  let q4 := if ascending = false then q3 ++ " DESC" else q3
  match limit with
  | some l => if l = 0 then q4 else q4 ++ " LIMIT " ++ toString l
  | none => q4

/-! ### Connection lifecycle state machine (`PgManager`, lines 12-89)

The driver (`psycopg2`) is abstracted by an oracle `Env` giving the
outcome of the n-th connection attempt and of the n-th statement
execution.  The manager state `PgState` carries the two instance fields
`_connection` and `_cursor`, the `reconnect` flag, and instrumentation:
global attempt counters indexing the oracle, the multiset of driver
connections opened and not yet closed (`liveConns`), the log of backoff
sleeps, and the retained `last_query` text. -/

/-- A driver connection handle; `id` records which connection attempt
opened it, `autocommit` is set to `False` on the success path. -/
structure Conn where
  id : Nat
  autocommit : Bool
deriving Repr, DecidableEq

/-- A driver cursor handle: an identity, the `closed` flag consulted by
`PgManager.cursor`, and the un-fetched rows of the last executed
statement (rows are abstracted as naturals). -/
structure Cur where
  id : Nat
  closed : Bool
  pending : List Nat
deriving Repr, DecidableEq

/-- Outcome of one `psycopg2.connect` attempt, as classified by the two
except clauses of `PgManager.connect`. -/
inductive ConnOutcome where
  | ok
  | opError
  | otherError
deriving Repr, DecidableEq

/-- Outcome of one `Cursor.execute` attempt, as classified by the two
except clauses of `PgManager.execute`. -/
inductive ExecOutcome where
  | ok (rows : List Nat)
  | dbError
  | opError
  | otherError
deriving Repr, DecidableEq

/-- The driver oracle: the outcome of the n-th connection attempt and of
the n-th statement execution made through this manager. -/
structure Env where
  connectOutcome : Nat → ConnOutcome
  execOutcome : Nat → ExecOutcome

/-- Errors surfaced to the caller: `psycopg2.OperationalError`,
other `psycopg2.DatabaseError`s, and everything else (including the
`AttributeError`/`InterfaceError` raised when the cursor is absent or
closed, re-raised by the generic except clause). -/
inductive PgError where
  | operational
  | database
  | other
deriving Repr, DecidableEq

/-- The manager state: the two instance fields and the `reconnect` flag,
plus instrumentation. -/
structure PgState where
  connection : Option Conn
  cursor : Option Cur
  reconnect : Bool
  connAttempts : Nat
  execAttempts : Nat
  nextCurId : Nat
  liveConns : List Nat
  sleepLog : List Nat
  lastQuery : Option String
deriving Repr, DecidableEq

namespace PgManager

/-- One step of `PgManager.connect` (lines 19-46), with an explicit fuel
argument for the bounded recursion: every recursive call increments the
retry counter while the guard raises at `retry_counter >= LIMIT_RETRIES`,
so from any call the recursion depth is at most `LIMIT_RETRIES + 1` and
the fuel-0 branch is unreachable when the wrapper below supplies
`LIMIT_RETRIES + 1` fuel.  The Python function returns the new connection
when the first attempt succeeds, and returns `None` both on the early
`if self._connection: return` exit and after a successful retry (the
recursive call's result is discarded). -/
def connectFuel (env : Env) : Nat → PgState → Nat → PgState × Except PgError (Option Conn)
  | 0, s, _ => (s, .error .operational)
  | fuel + 1, s, retryCounter =>
    if s.connection.isSome then (s, .ok none)
    else
      let n := s.connAttempts
      let s1 := { s with connAttempts := n + 1 }
      match env.connectOutcome n with
      | .ok =>
        let c : Conn := { id := n, autocommit := false }
        ({ s1 with connection := some c, liveConns := s1.liveConns ++ [n] }, .ok (some c))
      | .opError =>
        if s1.reconnect = false ∨ LIMIT_RETRIES ≤ retryCounter then
          (s1, .error .operational)
        else
          let s2 := { s1 with sleepLog := s1.sleepLog ++ [5] }
          match connectFuel env fuel s2 (retryCounter + 1) with
          | (s3, .error e) => (s3, .error e)
          | (s3, .ok _) => (s3, .ok none)
      | .otherError => (s1, .error .other)

/-- `PgManager.connect(retry_counter)`. -/
def connect (env : Env) (s : PgState) (retryCounter : Nat) :
    PgState × Except PgError (Option Conn) :=
  connectFuel env (LIMIT_RETRIES + 1) s retryCounter

/-- `PgManager.cursor` (lines 48-54): when the cursor is absent or closed,
connect first if no connection exists, then open a new cursor bound to the
connection and return it; otherwise fall through and return `None`. -/
def cursor (env : Env) (s : PgState) : PgState × Except PgError (Option Cur) :=
  let needNew := match s.cursor with
    | none => true
    | some c => c.closed
  if needNew then
    let step := if s.connection.isNone then connect env s 0 else (s, .ok none)
    match step with
    | (s1, .error e) => (s1, .error e)
    | (s1, .ok _) =>
      match s1.connection with
      | none => (s1, .error .other)
      | some _ =>
        let c : Cur := { id := s1.nextCurId, closed := false, pending := [] }
        ({ s1 with cursor := some c, nextCurId := s1.nextCurId + 1 }, .ok (some c))
  else (s, .ok none)

/-- `PgManager.close` (lines 82-89): close the cursor and connection
handles when a connection exists, then set both fields to `None`.  The
driver close calls never raise, so the embedding is a total function. -/
def close (s : PgState) : PgState :=
  match s.connection with
  | some c =>
    { s with connection := none, cursor := none, liveConns := s.liveConns.erase c.id }
  | none => { s with connection := none, cursor := none }

/-- `PgManager.reset` (lines 77-80): close, connect, cursor. -/
def reset (env : Env) (s : PgState) : PgState × Except PgError Unit :=
  let s1 := close s
  match connect env s1 0 with
  | (s2, .error e) => (s2, .error e)
  | (s2, .ok _) =>
    match cursor env s2 with
    | (s3, .error e) => (s3, .error e)
    | (s3, .ok _) => (s3, .ok ())

/-- Return value of `PgManager.execute`: `fetchone()` when `is_one` else
`fetchall()`. -/
inductive FetchRes where
  | one (row : Option Nat)
  | all (rows : List Nat)
deriving Repr, DecidableEq

/-- The fetch at the end of `PgManager.execute` (lines 72-75): `fetchone`
pops the first pending row (or `None`), `fetchall` drains and returns all
pending rows. -/
def fetchStep (s : PgState) (isOne : Bool) : PgState × Except PgError FetchRes :=
  match s.cursor with
  | none => (s, .error .other)
  | some cur =>
    if isOne then
      match cur.pending with
      | [] => (s, .ok (.one none))
      | r :: rs => ({ s with cursor := some { cur with pending := rs } }, .ok (.one (some r)))
    else
      ({ s with cursor := some { cur with pending := [] } }, .ok (.all cur.pending))

/-- One step of `PgManager.execute` (lines 56-75), fueled like
`connectFuel`.  Executing on an absent cursor raises `AttributeError` and
on a closed cursor `InterfaceError`, both re-raised by the generic except
clause (`PgError.other`).  On a database or operational error below the
retry limit the manager sleeps, resets, and recursively retries the same
query; the recursive call uses the default `is_one=False` and its result
is discarded, after which control falls through to the trailing fetch. -/
def executeFuel (env : Env) :
    Nat → PgState → String → Nat → Bool → PgState × Except PgError FetchRes
  | 0, s, _, _, _ => (s, .error .operational)
  | fuel + 1, s, query, retryCounter, isOne =>
    match s.cursor with
    | none => (s, .error .other)
    | some cur =>
      if cur.closed then (s, .error .other)
      else
        let n := s.execAttempts
        let s1 := { s with execAttempts := n + 1 }
        match env.execOutcome n with
        | .ok rows =>
          fetchStep { s1 with cursor := some { cur with pending := rows } } isOne
        | .otherError => (s1, .error .other)
        | .dbError =>
          if LIMIT_RETRIES ≤ retryCounter then (s1, .error .database)
          else
            let s2 := { s1 with sleepLog := s1.sleepLog ++ [1] }
            match reset env s2 with
            | (s3, .error e) => (s3, .error e)
            | (s3, .ok _) =>
              match executeFuel env fuel s3 query (retryCounter + 1) false with
              | (s4, .error e) => (s4, .error e)
              | (s4, .ok _) => fetchStep s4 isOne
        | .opError =>
          if LIMIT_RETRIES ≤ retryCounter then (s1, .error .operational)
          else
            let s2 := { s1 with sleepLog := s1.sleepLog ++ [1] }
            match reset env s2 with
            | (s3, .error e) => (s3, .error e)
            | (s3, .ok _) =>
              match executeFuel env fuel s3 query (retryCounter + 1) false with
              | (s4, .error e) => (s4, .error e)
              | (s4, .ok _) => fetchStep s4 isOne

/-- `PgManager.execute(query, retry_counter, is_one)`. -/
def execute (env : Env) (s : PgState) (query : String) (retryCounter : Nat)
    (isOne : Bool) : PgState × Except PgError FetchRes :=
  executeFuel env (LIMIT_RETRIES + 1) s query retryCounter isOne

/-- `PgManager.select` (lines 161-163): retain the constructed query text
in `last_query` and run it through `execute` with its default arguments. -/
def select (env : Env) (s : PgState) (table : String) (columns : PyColumns)
    (filters : Filters) (order_by : Option String) (ascending : Bool)
    (limit : Option Int) (random : Bool) : PgState × Except PgError FetchRes :=
  let query := buildSelectQuery table columns filters order_by ascending limit random
  execute env { s with lastQuery := some query } query 0 false

end PgManager

/-- The single-live-connection invariant: the connections opened by the
manager and not yet closed are exactly the content of the `_connection`
field, so at most one driver connection is live at any time. -/
def ConnInvariant (s : PgState) : Prop :=
  s.liveConns = match s.connection with
    | some c => [c.id]
    | none => []

/-! ### Concrete fixtures for witnesses and counterexamples -/

/-- A connection opened by attempt 0. -/
def conn0 : Conn := { id := 0, autocommit := false }

/-- An open cursor with an empty result buffer. -/
def cur0 : Cur := { id := 0, closed := false, pending := [] }

/-- A connected manager state holding `conn0` and the open cursor `cur0`. -/
def stOpen : PgState :=
  { connection := some conn0, cursor := some cur0, reconnect := true,
    connAttempts := 1, execAttempts := 0, nextCurId := 1, liveConns := [0],
    sleepLog := [], lastQuery := none }

/-- A disconnected manager state with reconnection enabled. -/
def stNoConn : PgState :=
  { connection := none, cursor := none, reconnect := true,
    connAttempts := 0, execAttempts := 0, nextCurId := 0, liveConns := [],
    sleepLog := [], lastQuery := none }

/-- A driver in which everything succeeds and queries return no rows. -/
def envTrivial : Env :=
  { connectOutcome := fun _ => .ok, execOutcome := fun _ => .ok [] }

/-- A driver in which every connection attempt fails transiently. -/
def envConnFail : Env :=
  { connectOutcome := fun _ => .opError, execOutcome := fun _ => .ok [] }

/-- A driver in which every statement execution fails transiently while
connections always succeed. -/
def envExecFail : Env :=
  { connectOutcome := fun _ => .ok, execOutcome := fun _ => .opError }

/-- A driver in which connection attempt 0 fails transiently and attempt 1
succeeds. -/
def envConnSecond : Env :=
  { connectOutcome := fun n => if n = 0 then .opError else .ok,
    execOutcome := fun _ => .ok [] }

/-- A driver in which execution attempt 0 fails transiently and attempt 1
returns the two rows 7 and 8; connections always succeed. -/
def envExecSecond : Env :=
  { connectOutcome := fun _ => .ok,
    execOutcome := fun n => if n = 0 then .opError else .ok [7, 8] }

/-- A driver in which connections succeed and every query returns the
single row 3. -/
def envRows : Env :=
  { connectOutcome := fun _ => .ok, execOutcome := fun _ => .ok [3] }

/-! ### Theorems about the query builder -/

theorem string_append_empty (s : String) : s ++ "" = s := by
  cases s
  simp [String.append]

theorem string_empty_append (s : String) : "" ++ s = s := by
  cases s
  simp [String.append]

/-- The sequential clause appending of lines 156-159 equals the
concatenation of the four independent clause strings, in their fixed
textual order. -/
theorem buildSelectQuery_decomp (table : String) (columns : PyColumns)
    (filters : Filters) (order_by : Option String) (ascending : Bool)
    (limit : Option Int) (random : Bool) :
    buildSelectQuery table columns filters order_by ascending limit random
      = selectBase table columns filters
        ++ (if random then " ORDER BY random()" else "")
        ++ orderByClause order_by
        ++ (if ascending = false then " DESC" else "")
        ++ limitClause limit := by
  unfold buildSelectQuery orderByClause limitClause
  generalize selectBase table columns filters = b
  cases order_by <;> cases limit <;> cases ascending <;> cases random <;>
    simp only [] <;> split_ifs <;>
    simp only [string_append_empty, string_empty_append, String.append_assoc]

theorem filterFragments_nil : filterFragments [] = [] := rfl

theorem selectBase_nil (table : String) (columns : PyColumns) :
    selectBase table columns []
      = "SELECT " ++ renderColumns columns ++ " FROM " ++ table := rfl

/-- C3: the query builder is deterministic.  The call
`select("t", filters={"=": {"a": 1}}, limit=5)` constructs exactly the
query string `SELECT * FROM t WHERE a = 1 LIMIT 5`, and with an empty
filters mapping the constructed query is the plain base clause followed by
the optional clauses, with no WHERE clause at all. -/
theorem c3_query_builder_determinism :
    buildSelectQuery "t" (.ofStr "*") [("=", [("a", .vScalar "1")])] none true (some 5) false
      = "SELECT * FROM t WHERE a = 1 LIMIT 5"
    ∧ ∀ (table : String) (columns : PyColumns) (order_by : Option String)
        (ascending : Bool) (limit : Option Int) (random : Bool),
        buildSelectQuery table columns [] order_by ascending limit random
          = ("SELECT " ++ renderColumns columns ++ " FROM " ++ table)
            ++ (if random then " ORDER BY random()" else "")
            ++ orderByClause order_by
            ++ (if ascending = false then " DESC" else "")
            ++ limitClause limit := by
  refine ⟨by decide, fun table columns order_by ascending limit random => ?_⟩
  rw [buildSelectQuery_decomp, selectBase_nil]

/-- C4: filter values render by the four-way case split of `select`: a
string is wrapped verbatim in single quotes with no escaping, `None`
becomes the unquoted literal `null` (so `{"is": {"title": None}}` yields
the fragment `title is null`), any other iterable becomes the
parenthesized comma join of its elements (so `{"in": {"id": [1,2,3]}}`
yields `id in (1,2,3)`), and any other scalar keeps its plain unquoted
string form. -/
theorem c4_filter_value_rendering :
    buildSelectQuery "t" (.ofStr "*") [("=", [("name", .vStr "bob")])] none true none false
      = "SELECT * FROM t WHERE name = 'bob'"
    ∧ buildSelectQuery "t" (.ofStr "*") [("is", [("title", .vNone)])] none true none false
      = "SELECT * FROM t WHERE title is null"
    ∧ buildSelectQuery "t" (.ofStr "*")
        [("in", [("id", .vIter [.vScalar "1", .vScalar "2", .vScalar "3"])])] none true none false
      = "SELECT * FROM t WHERE id in (1,2,3)"
    ∧ buildSelectQuery "t" (.ofStr "*") [("=", [("age", .vScalar "5")])] none true none false
      = "SELECT * FROM t WHERE age = 5"
    ∧ ∀ s : String, renderFilterValue (.vStr s) = "'" ++ s ++ "'" := by
  exact ⟨by decide, by decide, by decide, by decide, fun s => rfl⟩

/-- C5: the optional clauses are appended in the fixed textual order
random-order, explicit order-by, DESC, LIMIT; both ORDER BY clauses appear
when both are requested, and DESC appears whenever `ascending` is false
even with no preceding ORDER BY. -/
theorem c5_optional_clause_order :
    (∀ (table : String) (columns : PyColumns) (filters : Filters)
        (order_by : Option String) (ascending : Bool) (limit : Option Int)
        (random : Bool),
        buildSelectQuery table columns filters order_by ascending limit random
          = selectBase table columns filters
            ++ (if random then " ORDER BY random()" else "")
            ++ orderByClause order_by
            ++ (if ascending = false then " DESC" else "")
            ++ limitClause limit)
    ∧ buildSelectQuery "t" (.ofStr "*") [] (some "c") false (some 2) true
      = "SELECT * FROM t ORDER BY random() ORDER BY c DESC LIMIT 2"
    ∧ buildSelectQuery "t" (.ofStr "*") [] none false none false
      = "SELECT * FROM t DESC" := by
  exact ⟨buildSelectQuery_decomp, by decide, by decide⟩

/-- C10: the default `limit` argument is `1`, so a plain `select(table)`
issues `SELECT * FROM table LIMIT 1`; for any limit the LIMIT clause is
present exactly when the limit is truthy, so only a falsy limit (`0` or
`None`) produces a query with no LIMIT clause. -/
theorem c10_default_limit :
    (∀ table : String,
        buildSelectQuery table (.ofStr "*") [] none true (some 1) false
          = "SELECT * FROM " ++ table ++ " LIMIT 1")
    ∧ (∀ (table : String) (limit : Option Int),
        buildSelectQuery table (.ofStr "*") [] none true limit false
          = "SELECT * FROM " ++ table ++ limitClause limit)
    ∧ limitClause (some 0) = "" ∧ limitClause none = ""
    ∧ ∀ l : Int, l ≠ 0 → limitClause (some l) = " LIMIT " ++ toString l := by
  have base : ∀ (table : String) (limit : Option Int),
      buildSelectQuery table (.ofStr "*") [] none true limit false
        = "SELECT * FROM " ++ table ++ limitClause limit := by
    intro table limit
    rw [buildSelectQuery_decomp, selectBase_nil]
    simp only [orderByClause, renderColumns, if_neg, string_append_empty]
    simp [string_append_empty, String.append_assoc]
  refine ⟨fun table => ?_, base, rfl, rfl, fun l hl => by simp [limitClause, hl]⟩
  rw [base]
  simp [limitClause, String.append_assoc]
  rfl

/-- C10 witness: the last conjunct has a hypothesis; at limit 5 the LIMIT
clause is present. -/
theorem c10_default_limit_witness :
    buildSelectQuery "t" (.ofStr "*") [] none true (some 1) false
      = "SELECT * FROM t LIMIT 1"
    ∧ limitClause (some 5) = " LIMIT 5" := by
  refine ⟨?_, c10_default_limit.2.2.2.2 5 (by decide)⟩
  have h := c10_default_limit.1 "t"
  simpa using h

/-! ### Theorems about the lifecycle state machine -/

/-- C6: `close` is idempotent: it never raises (it is a total function of
the state), after one call both the connection and the cursor field are in
the null state, and a second call leaves the state unchanged. -/
theorem c6_close_idempotent :
    ∀ s : PgState,
      (PgManager.close s).connection = none
      ∧ (PgManager.close s).cursor = none
      ∧ PgManager.close (PgManager.close s) = PgManager.close s := by
  intro s
  obtain ⟨conn, cur, rec, ca, ea, nc, lc, sl, lq⟩ := s
  cases conn <;> simp [PgManager.close]

theorem close_inv (s : PgState) (h : ConnInvariant s) :
    ConnInvariant (PgManager.close s) := by
  obtain ⟨conn, cur, rec, ca, ea, nc, lc, sl, lq⟩ := s
  cases conn <;> simp [ConnInvariant, PgManager.close] at h ⊢ <;> simp [h]

theorem connectFuel_inv (env : Env) :
    ∀ (fuel : Nat) (s : PgState) (r : Nat), ConnInvariant s →
      ConnInvariant (PgManager.connectFuel env fuel s r).1 := by
  intro fuel
  induction fuel with
  | zero => intro s r h; simpa [PgManager.connectFuel] using h
  | succ fuel ih =>
    rintro ⟨conn, cur, rec, ca, ea, nc, lc, sl, lq⟩ r h
    cases conn with
    | some c => simpa [PgManager.connectFuel] using h
    | none =>
      have hl : lc = [] := by simpa [ConnInvariant] using h
      subst hl
      rcases ho : env.connectOutcome ca with _ | _ | _
      · simp [PgManager.connectFuel, ho, ConnInvariant]
      · simp only [PgManager.connectFuel, ho, Option.isSome_none, Bool.false_eq_true,
          if_false]
        split
        · simp [ConnInvariant]
        · rcases hp : PgManager.connectFuel env fuel
              ⟨none, cur, rec, ca + 1, ea, nc, [], sl ++ [5], lq⟩ (r + 1) with ⟨s3, r3⟩
          have hrec := ih ⟨none, cur, rec, ca + 1, ea, nc, [], sl ++ [5], lq⟩ (r + 1)
            (by simp [ConnInvariant])
          rw [hp] at hrec
          cases r3 <;> simpa using hrec
      · simp [PgManager.connectFuel, ho, ConnInvariant]

theorem connect_inv (env : Env) (s : PgState) (r : Nat) (h : ConnInvariant s) :
    ConnInvariant (PgManager.connect env s r).1 :=
  connectFuel_inv env (LIMIT_RETRIES + 1) s r h

theorem cursor_newPath_inv (s1 : PgState) (h1 : ConnInvariant s1) :
    ConnInvariant ((match s1.connection with
      | none => (s1, (.error .other : Except PgError (Option Cur)))
      | some _ =>
        ({ s1 with
            cursor := some { id := s1.nextCurId, closed := false, pending := [] },
            nextCurId := s1.nextCurId + 1 },
          .ok (some { id := s1.nextCurId, closed := false, pending := [] }))).1) := by
  rcases hcn : s1.connection with _ | k
  · simpa [hcn] using h1
  · simp only [hcn]
    simpa [ConnInvariant, hcn] using h1

theorem cursor_inv (env : Env) (s : PgState) (h : ConnInvariant s) :
    ConnInvariant (PgManager.cursor env s).1 := by
  unfold PgManager.cursor
  rcases hcur : s.cursor with _ | c
  all_goals simp only [hcur]
  case some =>
    rcases hcl : c.closed with _ | _
    · simpa [hcur] using h
    · rcases hcn : s.connection with _ | k
      · simp only [hcn, Option.isNone_none, if_true]
        have h1 := connect_inv env s 0 h
        rcases hp : PgManager.connect env s 0 with ⟨s1, r1⟩
        rw [hp] at h1
        cases r1
        · simpa using h1
        · simpa using cursor_newPath_inv s1 h1
      · simp only [hcn, Option.isNone_some, Bool.false_eq_true, if_false]
        simpa [ConnInvariant, hcn] using h
  case none =>
    rcases hcn : s.connection with _ | k
    · simp only [hcn, Option.isNone_none, if_true]
      have h1 := connect_inv env s 0 h
      rcases hp : PgManager.connect env s 0 with ⟨s1, r1⟩
      rw [hp] at h1
      cases r1
      · simpa using h1
      · simpa using cursor_newPath_inv s1 h1
    · simp only [hcn, Option.isNone_some, Bool.false_eq_true, if_false]
      simpa [ConnInvariant, hcn] using h

theorem reset_inv (env : Env) (s : PgState) (h : ConnInvariant s) :
    ConnInvariant (PgManager.reset env s).1 := by
  simp only [PgManager.reset]
  have h1 := connect_inv env (PgManager.close s) 0 (close_inv s h)
  generalize hp : PgManager.connect env (PgManager.close s) 0 = p
  rw [hp] at h1
  obtain ⟨s2, r2⟩ := p
  cases r2
  · simpa using h1
  · dsimp only []
    have h2 := cursor_inv env s2 (by simpa using h1)
    generalize hq : PgManager.cursor env s2 = p2
    rw [hq] at h2
    obtain ⟨s3, r3⟩ := p2
    cases r3 <;> simpa using h2

theorem fetchStep_inv (s : PgState) (isOne : Bool) (h : ConnInvariant s) :
    ConnInvariant (PgManager.fetchStep s isOne).1 := by
  simp only [PgManager.fetchStep]
  rcases hcur : s.cursor with _ | cur
  · exact h
  · cases isOne
    · simpa [ConnInvariant] using h
    · simp only [if_true]
      rcases cur.pending with _ | ⟨p, ps⟩
      · exact h
      · simpa [ConnInvariant] using h

theorem executeFuel_inv (env : Env) :
    ∀ (fuel : Nat) (s : PgState) (q : String) (r : Nat) (isOne : Bool),
      ConnInvariant s →
      ConnInvariant (PgManager.executeFuel env fuel s q r isOne).1 := by
  intro fuel
  induction fuel with
  | zero => intro s q r isOne h; simpa [PgManager.executeFuel] using h
  | succ fuel ih =>
    intro s q r isOne h
    rcases hcur : s.cursor with _ | cur
    · simp only [PgManager.executeFuel, hcur]
      exact h
    · simp only [PgManager.executeFuel, hcur]
      split
      · exact h
      · rcases ho : env.execOutcome s.execAttempts with rows | _ | _ | _ <;>
          simp only [ho]
        · exact fetchStep_inv _ isOne (by simpa [ConnInvariant] using h)
        · split
          · simpa [ConnInvariant] using h
          · have h2 : ConnInvariant
                ({ s with
                    cursor := some cur,
                    execAttempts := s.execAttempts + 1,
                    sleepLog := s.sleepLog ++ [1] } : PgState) := by
              simpa [ConnInvariant] using h
            have h3 := reset_inv env _ h2
            generalize hp : PgManager.reset env ({ s with
                cursor := some cur,
                execAttempts := s.execAttempts + 1,
                sleepLog := s.sleepLog ++ [1] } : PgState) = p at h3 ⊢
            obtain ⟨s3, r3⟩ := p
            cases r3
            · simpa using h3
            · dsimp only []
              have h4 := ih s3 q (r + 1) false (by simpa using h3)
              generalize hq : PgManager.executeFuel env fuel s3 q (r + 1) false = p2 at h4 ⊢
              obtain ⟨s4, r4⟩ := p2
              cases r4
              · simpa using h4
              · exact fetchStep_inv s4 isOne (by simpa using h4)
        · split
          · simpa [ConnInvariant] using h
          · have h2 : ConnInvariant
                ({ s with
                    cursor := some cur,
                    execAttempts := s.execAttempts + 1,
                    sleepLog := s.sleepLog ++ [1] } : PgState) := by
              simpa [ConnInvariant] using h
            have h3 := reset_inv env _ h2
            generalize hp : PgManager.reset env ({ s with
                cursor := some cur,
                execAttempts := s.execAttempts + 1,
                sleepLog := s.sleepLog ++ [1] } : PgState) = p at h3 ⊢
            obtain ⟨s3, r3⟩ := p
            cases r3
            · simpa using h3
            · dsimp only []
              have h4 := ih s3 q (r + 1) false (by simpa using h3)
              generalize hq : PgManager.executeFuel env fuel s3 q (r + 1) false = p2 at h4 ⊢
              obtain ⟨s4, r4⟩ := p2
              cases r4
              · simpa using h4
              · exact fetchStep_inv s4 isOne (by simpa using h4)
        · simpa [ConnInvariant] using h

/-- C7: `connect` is a no-op whenever a connection is already present, and
every operation of the manager preserves the invariant that the driver
connections opened and not yet closed are exactly the one held in the
`_connection` field: at most one live connection per manager at any
time. -/
theorem c7_single_connection_invariant :
    (∀ (env : Env) (s : PgState) (r : Nat),
        s.connection.isSome → PgManager.connect env s r = (s, .ok none))
    ∧ (∀ (env : Env) (s : PgState) (r : Nat),
        ConnInvariant s → ConnInvariant (PgManager.connect env s r).1)
    ∧ (∀ (env : Env) (s : PgState),
        ConnInvariant s → ConnInvariant (PgManager.cursor env s).1)
    ∧ (∀ s : PgState, ConnInvariant s → ConnInvariant (PgManager.close s))
    ∧ (∀ (env : Env) (s : PgState),
        ConnInvariant s → ConnInvariant (PgManager.reset env s).1)
    ∧ (∀ (env : Env) (s : PgState) (q : String) (r : Nat) (isOne : Bool),
        ConnInvariant s → ConnInvariant (PgManager.execute env s q r isOne).1) := by
  refine ⟨?_, connect_inv, cursor_inv, close_inv, reset_inv,
    fun env s q r isOne h => executeFuel_inv env (LIMIT_RETRIES + 1) s q r isOne h⟩
  intro env s r h
  simp [PgManager.connect, PgManager.connectFuel, h]

/-- C7 witness: at the concrete connected state, `connect` is a no-op and
the invariant is preserved by close and execute. -/
theorem c7_single_connection_invariant_witness :
    PgManager.connect envTrivial stOpen 0 = (stOpen, .ok none)
    ∧ ConnInvariant (PgManager.close stOpen)
    ∧ ConnInvariant (PgManager.execute envTrivial stOpen "q" 0 false).1 := by
  refine ⟨c7_single_connection_invariant.1 envTrivial stOpen 0 (by decide), ?_, ?_⟩
  · exact c7_single_connection_invariant.2.2.2.1 stOpen rfl
  · exact c7_single_connection_invariant.2.2.2.2.2 envTrivial stOpen "q" 0 false rfl

/-- Every connection attempt failing transiently: `connectFuel` from retry
counter `r` makes exactly `LIMIT_RETRIES + 1 - r` further attempts and then
surfaces the operational error. -/
theorem connectFuel_allfail (env : Env) (hA : ∀ n, env.connectOutcome n = .opError) :
    ∀ (fuel : Nat) (r : Nat) (s : PgState), s.connection = none → s.reconnect = true →
      LIMIT_RETRIES + 1 - r ≤ fuel → r ≤ LIMIT_RETRIES →
      (PgManager.connectFuel env fuel s r).2 = .error .operational
      ∧ (PgManager.connectFuel env fuel s r).1.connAttempts
          = s.connAttempts + (LIMIT_RETRIES + 1 - r) := by
  intro fuel
  induction fuel with
  | zero =>
    intro r s h1 h2 h3 h4
    exfalso
    simp [LIMIT_RETRIES] at h3 h4
    omega
  | succ fuel ih =>
    intro r s h1 h2 h3 h4
    obtain ⟨conn, cur, rec, ca, ea, nc, lc, sl, lq⟩ := s
    simp only at h1 h2
    subst h1
    subst h2
    by_cases hr : LIMIT_RETRIES ≤ r
    · have hr5 : r = LIMIT_RETRIES := le_antisymm h4 hr
      subst hr5
      simp [PgManager.connectFuel, hA, LIMIT_RETRIES]
    · simp only [PgManager.connectFuel, hA, Option.isSome_none, Bool.false_eq_true,
        if_false]
      have hguard : ¬(true = false ∨ LIMIT_RETRIES ≤ r) := by simp [hr]
      rw [if_neg hguard]
      have hrec := ih (r + 1) ⟨none, cur, true, ca + 1, ea, nc, lc, sl ++ [5], lq⟩
        rfl rfl (by simp [LIMIT_RETRIES] at h3 ⊢; omega) (by simp [LIMIT_RETRIES] at hr ⊢; omega)
      generalize hp : PgManager.connectFuel env fuel
        ⟨none, cur, true, ca + 1, ea, nc, lc, sl ++ [5], lq⟩ (r + 1) = p at hrec ⊢
      obtain ⟨s3, r3⟩ := p
      obtain ⟨he, hc⟩ := hrec
      dsimp only [] at he hc
      cases r3 with
      | ok a => exact absurd he (by simp)
      | error e =>
        have heq : e = PgError.operational := by simpa using he
        subst heq
        dsimp only []
        refine ⟨rfl, ?_⟩
        have hL : LIMIT_RETRIES = 5 := rfl
        omega

/-- When the connection attempt made inside `reset` succeeds, `reset`
returns normally with a fresh connection and a fresh open cursor, leaving
the execution-attempt counter untouched. -/
theorem reset_ok (env : Env) (s : PgState)
    (h : env.connectOutcome s.connAttempts = .ok) :
    PgManager.reset env s =
      ({ connection := some { id := s.connAttempts, autocommit := false },
         cursor := some { id := s.nextCurId, closed := false, pending := [] },
         reconnect := s.reconnect,
         connAttempts := s.connAttempts + 1,
         execAttempts := s.execAttempts,
         nextCurId := s.nextCurId + 1,
         liveConns := (PgManager.close s).liveConns ++ [s.connAttempts],
         sleepLog := s.sleepLog,
         lastQuery := s.lastQuery }, .ok ()) := by
  obtain ⟨conn, cur, rec, ca, ea, nc, lc, sl, lq⟩ := s
  simp only at h
  cases conn <;>
    simp [PgManager.reset, PgManager.close, PgManager.connect, PgManager.connectFuel,
      PgManager.cursor, h]

/-- Every execution attempt failing transiently while connections succeed:
`executeFuel` from retry counter `r` makes exactly `LIMIT_RETRIES + 1 - r`
further attempts and then surfaces the operational error. -/
theorem executeFuel_allfail (env : Env)
    (hE : ∀ n, env.execOutcome n = .opError)
    (hC : ∀ n, env.connectOutcome n = .ok) :
    ∀ (fuel : Nat) (r : Nat) (s : PgState) (q : String) (isOne : Bool) (c : Cur),
      s.cursor = some c → c.closed = false →
      LIMIT_RETRIES + 1 - r ≤ fuel → r ≤ LIMIT_RETRIES →
      (PgManager.executeFuel env fuel s q r isOne).2 = .error .operational
      ∧ (PgManager.executeFuel env fuel s q r isOne).1.execAttempts
          = s.execAttempts + (LIMIT_RETRIES + 1 - r) := by
  intro fuel
  induction fuel with
  | zero =>
    intro r s q isOne c h1 h2 h3 h4
    exfalso
    simp [LIMIT_RETRIES] at h3 h4
    omega
  | succ fuel ih =>
    intro r s q isOne c h1 h2 h3 h4
    by_cases hr : LIMIT_RETRIES ≤ r
    · have hr5 : r = LIMIT_RETRIES := le_antisymm h4 hr
      subst hr5
      simp [PgManager.executeFuel, h1, h2, hE, LIMIT_RETRIES]
    · simp only [PgManager.executeFuel, h1, h2, hE, Bool.false_eq_true, if_false]
      rw [if_neg hr]
      rw [reset_ok env _ (hC _)]
      dsimp only []
      have hrec := ih (r + 1)
        ({ connection := some { id := s.connAttempts, autocommit := false },
           cursor := some { id := s.nextCurId, closed := false, pending := [] },
           reconnect := s.reconnect,
           connAttempts := s.connAttempts + 1,
           execAttempts := s.execAttempts + 1,
           nextCurId := s.nextCurId + 1,
           liveConns := (PgManager.close ({ s with
             cursor := some c,
             execAttempts := s.execAttempts + 1,
             sleepLog := s.sleepLog ++ [1] } : PgState)).liveConns ++ [s.connAttempts],
           sleepLog := s.sleepLog ++ [1],
           lastQuery := s.lastQuery } : PgState) q false
        { id := s.nextCurId, closed := false, pending := [] } rfl rfl
        (by have hL : LIMIT_RETRIES = 5 := rfl; omega)
        (by have hL : LIMIT_RETRIES = 5 := rfl; omega)
      generalize hp : PgManager.executeFuel env fuel
        ({ connection := some { id := s.connAttempts, autocommit := false },
           cursor := some { id := s.nextCurId, closed := false, pending := [] },
           reconnect := s.reconnect,
           connAttempts := s.connAttempts + 1,
           execAttempts := s.execAttempts + 1,
           nextCurId := s.nextCurId + 1,
           liveConns := (PgManager.close ({ s with
             cursor := some c,
             execAttempts := s.execAttempts + 1,
             sleepLog := s.sleepLog ++ [1] } : PgState)).liveConns ++ [s.connAttempts],
           sleepLog := s.sleepLog ++ [1],
           lastQuery := s.lastQuery } : PgState) q (r + 1) false = p at hrec ⊢
      obtain ⟨s4, r4⟩ := p
      obtain ⟨he, hc⟩ := hrec
      dsimp only [] at he hc
      cases r4 with
      | ok a => exact absurd he (by simp)
      | error e =>
        have heq : e = PgError.operational := by simpa using he
        subst heq
        dsimp only []
        refine ⟨rfl, ?_⟩
        have hL : LIMIT_RETRIES = 5 := rfl
        omega

/-- C1: with a transient failure injected on every attempt, `connect`
(with reconnect enabled) and `execute` each make exactly
`LIMIT_RETRIES + 1 = 6` total attempts, the retry counter starting at 0,
before surfacing the operational error to the caller. -/
theorem c1_retry_bound :
    LIMIT_RETRIES + 1 = 6
    ∧ (∀ (env : Env) (s : PgState),
        (∀ n, env.connectOutcome n = .opError) → s.connection = none →
        s.reconnect = true →
        (PgManager.connect env s 0).2 = .error .operational
        ∧ (PgManager.connect env s 0).1.connAttempts
            = s.connAttempts + (LIMIT_RETRIES + 1))
    ∧ (∀ (env : Env) (s : PgState) (q : String) (isOne : Bool) (c : Cur),
        (∀ n, env.execOutcome n = .opError) → (∀ n, env.connectOutcome n = .ok) →
        s.cursor = some c → c.closed = false →
        (PgManager.execute env s q 0 isOne).2 = .error .operational
        ∧ (PgManager.execute env s q 0 isOne).1.execAttempts
            = s.execAttempts + (LIMIT_RETRIES + 1)) := by
  refine ⟨rfl, ?_, ?_⟩
  · intro env s hA h1 h2
    have h := connectFuel_allfail env hA (LIMIT_RETRIES + 1) 0 s h1 h2
      (by simp) (by simp [LIMIT_RETRIES])
    simpa using h
  · intro env s q isOne c hE hC h1 h2
    have h := executeFuel_allfail env hE hC (LIMIT_RETRIES + 1) 0 s q isOne c h1 h2
      (by simp) (by simp [LIMIT_RETRIES])
    simpa using h

/-- C1 witness: from the concrete states, all-failing drivers produce the
operational error after exactly 6 attempts for both operations. -/
theorem c1_retry_bound_witness :
    (PgManager.connect envConnFail stNoConn 0).2 = .error .operational
    ∧ (PgManager.connect envConnFail stNoConn 0).1.connAttempts = 6
    ∧ (PgManager.execute envExecFail stOpen "q" 0 false).2 = .error .operational
    ∧ (PgManager.execute envExecFail stOpen "q" 0 false).1.execAttempts = 6 := by
  have h1 := c1_retry_bound.2.1 envConnFail stNoConn (fun n => rfl) rfl rfl
  have h2 := c1_retry_bound.2.2 envExecFail stOpen "q" false cur0
    (fun n => rfl) (fun n => rfl) rfl rfl
  exact ⟨h1.1, by simpa [stNoConn] using h1.2, h2.1, by simpa [stOpen] using h2.2⟩


/-- The trailing fetch returns the head of the pending buffer for
`fetchone` and the whole buffer for `fetchall`. -/
theorem fetchStep_spec (s : PgState) (c : Cur) (h : s.cursor = some c) (isOne : Bool) :
    (PgManager.fetchStep s isOne).2
      = .ok (if isOne then .one c.pending.head? else .all c.pending) := by
  cases isOne <;> rcases hp : c.pending with _ | ⟨p, ps⟩ <;>
    simp [PgManager.fetchStep, h, hp]

/-- C9: the return value of `connect` depends on which attempt succeeds:
a first-attempt success returns the newly opened connection object (the
same one stored in the state), while a success reached only through the
retry path returns `None`, because the recursive call result is
discarded, even though the connection was established. -/
theorem c9_connect_return_value :
    (∀ (env : Env) (s : PgState) (r : Nat),
        s.connection = none → env.connectOutcome s.connAttempts = .ok →
        PgManager.connect env s r
          = ({ s with
               connection := some { id := s.connAttempts, autocommit := false },
               connAttempts := s.connAttempts + 1,
               liveConns := s.liveConns ++ [s.connAttempts] },
             .ok (some { id := s.connAttempts, autocommit := false })))
    ∧ (∀ (env : Env) (s : PgState) (r : Nat),
        s.connection = none → s.reconnect = true → r < LIMIT_RETRIES →
        env.connectOutcome s.connAttempts = .opError →
        env.connectOutcome (s.connAttempts + 1) = .ok →
        (PgManager.connect env s r).2 = .ok none
        ∧ (PgManager.connect env s r).1.connection
            = some { id := s.connAttempts + 1, autocommit := false }) := by
  constructor
  · intro env s r h1 h2
    obtain ⟨conn, cur, rec, ca, ea, nc, lc, sl, lq⟩ := s
    simp only at h1 h2
    subst h1
    simp [PgManager.connect, PgManager.connectFuel, h2]
  · intro env s r h1 h2 hr h4 h5
    obtain ⟨conn, cur, rec, ca, ea, nc, lc, sl, lq⟩ := s
    simp only at h1 h2 h4 h5
    subst h1
    subst h2
    have hguard : ¬(true = false ∨ LIMIT_RETRIES ≤ r) := by
      simp
      omega
    simp only [PgManager.connect, PgManager.connectFuel, h4, h5, Option.isSome_none,
      Bool.false_eq_true, if_false]
    rw [if_neg hguard]
    dsimp only []
    exact ⟨rfl, rfl⟩

/-- C9 witness: with connection attempt 0 failing and attempt 1
succeeding, `connect` establishes the connection but returns `None`; on an
all-success driver the first attempt returns the connection object. -/
theorem c9_connect_return_value_witness :
    (PgManager.connect envConnSecond stNoConn 0).2 = .ok none
    ∧ (PgManager.connect envConnSecond stNoConn 0).1.connection
        = some { id := 1, autocommit := false }
    ∧ (PgManager.connect envTrivial stNoConn 0).2
        = .ok (some { id := 0, autocommit := false }) := by
  have h2 := c9_connect_return_value.2 envConnSecond stNoConn 0 rfl rfl
    (by simp [LIMIT_RETRIES]) rfl rfl
  have h1 := c9_connect_return_value.1 envTrivial stNoConn 0 rfl rfl
  refine ⟨h2.1, by simpa [stNoConn] using h2.2, ?_⟩
  have h3 := congrArg Prod.snd h1
  simpa [stNoConn] using h3


/-- C8 counterexample: at a state holding a present, open cursor, the
claim says `cursor()` returns that existing cursor, but the call falls
through the `if` with no `return` statement and yields `None`. -/
theorem c8_cursor_counterexample :
    stOpen.cursor = some cur0
    ∧ cur0.closed = false
    ∧ (PgManager.cursor envTrivial stOpen).2 = .ok none
    ∧ (PgManager.cursor envTrivial stOpen).2 ≠ .ok (some cur0) := by
  refine ⟨rfl, rfl, rfl, ?_⟩
  intro h
  simp [PgManager.cursor, stOpen, cur0, conn0] at h

/-- C8 amended: when the cursor is present and open, `cursor()` leaves the
state unchanged and returns `None` (not the existing cursor); otherwise it
ensures a connection exists (invoking `connect` when the connection is
absent), opens a new cursor bound to it, stores it and returns it. -/
theorem c8_cursor_amended :
    (∀ (env : Env) (s : PgState) (c : Cur),
        s.cursor = some c → c.closed = false →
        PgManager.cursor env s = (s, .ok none))
    ∧ (∀ (env : Env) (s : PgState) (k : Conn),
        (s.cursor = none ∨ (∃ c, s.cursor = some c ∧ c.closed = true)) →
        s.connection = some k →
        PgManager.cursor env s
          = ({ s with
               cursor := some { id := s.nextCurId, closed := false, pending := [] },
               nextCurId := s.nextCurId + 1 },
             .ok (some { id := s.nextCurId, closed := false, pending := [] })))
    ∧ (∀ (env : Env) (s : PgState),
        s.cursor = none → s.connection = none →
        env.connectOutcome s.connAttempts = .ok →
        (PgManager.cursor env s).2
          = .ok (some { id := s.nextCurId, closed := false, pending := [] })
        ∧ (PgManager.cursor env s).1.cursor
          = some { id := s.nextCurId, closed := false, pending := [] }
        ∧ (PgManager.cursor env s).1.connection
          = some { id := s.connAttempts, autocommit := false }) := by
  refine ⟨?_, ?_, ?_⟩
  · intro env s c h1 h2
    simp [PgManager.cursor, h1, h2]
  · intro env s k hcur hconn
    rcases hcur with h1 | ⟨c, h1, h2⟩
    · simp [PgManager.cursor, h1, hconn]
    · simp [PgManager.cursor, h1, h2, hconn]
  · intro env s h1 h2 h3
    obtain ⟨conn, cur, rec, ca, ea, nc, lc, sl, lq⟩ := s
    simp only at h1 h2 h3
    subst h1
    subst h2
    simp [PgManager.cursor, PgManager.connect, PgManager.connectFuel, h3]

/-- C8 witness: the amended behavior at concrete states: a present open
cursor yields `None` with the state unchanged; with no cursor and no
connection the call connects and returns the fresh cursor. -/
theorem c8_cursor_amended_witness :
    PgManager.cursor envTrivial stOpen = (stOpen, .ok none)
    ∧ (PgManager.cursor envTrivial stNoConn).2
        = .ok (some { id := 0, closed := false, pending := [] }) := by
  refine ⟨c8_cursor_amended.1 envTrivial stOpen cur0 rfl rfl, ?_⟩
  have h := c8_cursor_amended.2.2 envTrivial stNoConn rfl rfl rfl
  simpa [stNoConn] using h.1


/-- C2 counterexample: execution attempt 0 fails transiently and attempt 1
succeeds with the nonempty result set `[7, 8]`; the claim says the call
with `is_one=True` then returns the first row 7, but the discarded
recursive retry call has already drained the cursor with its own
`fetchall`, so the caller receives `None`. -/
theorem c2_execute_return_counterexample :
    envExecSecond.execOutcome 1 = .ok [7, 8]
    ∧ (PgManager.execute envExecSecond stOpen "SELECT * FROM t" 0 true).2
        = .ok (.one none)
    ∧ (PgManager.execute envExecSecond stOpen "SELECT * FROM t" 0 true).2
        ≠ .ok (.one (some 7)) := by
  have h0 : (PgManager.execute envExecSecond stOpen "SELECT * FROM t" 0 true).2
      = .ok (.one none) := rfl
  refine ⟨rfl, h0, ?_⟩
  rw [h0]
  simp

/-- C2 amended: when the first execution attempt succeeds, `execute`
returns the first fetched row (for `is_one`) or all fetched rows;
when success is reached only after a retry/reset cycle, the recursive
retry call (made with the default `is_one=False`) consumes the result
buffer and its value is discarded, so the outer call fetches from the
drained cursor and returns `None` (for `is_one`) or the empty list. -/
theorem c2_execute_return_amended :
    (∀ (env : Env) (s : PgState) (q : String) (isOne : Bool) (c : Cur)
        (rows : List Nat),
        s.cursor = some c → c.closed = false →
        env.execOutcome s.execAttempts = .ok rows →
        (PgManager.execute env s q 0 isOne).2
          = .ok (if isOne then .one rows.head? else .all rows))
    ∧ (∀ (env : Env) (s : PgState) (q : String) (isOne : Bool) (c : Cur)
        (rows : List Nat),
        s.cursor = some c → c.closed = false →
        env.execOutcome s.execAttempts = .opError →
        env.execOutcome (s.execAttempts + 1) = .ok rows →
        env.connectOutcome s.connAttempts = .ok →
        (PgManager.execute env s q 0 isOne).2
          = .ok (if isOne then .one none else .all [])) := by
  constructor
  · intro env s q isOne c rows h1 h2 h3
    obtain ⟨conn, cur, rec, ca, ea, nc, lc, sl, lq⟩ := s
    simp only at h1 h2 h3
    subst h1
    cases isOne <;> rcases rows with _ | ⟨r0, rs⟩ <;>
      simp [PgManager.execute, PgManager.executeFuel, PgManager.fetchStep, h2, h3]
  · intro env s q isOne c rows h1 h2 h3 h4 h5
    obtain ⟨conn, cur, rec, ca, ea, nc, lc, sl, lq⟩ := s
    simp only at h1 h2 h3 h4 h5
    subst h1
    cases isOne <;> cases conn <;>
      simp [PgManager.execute, PgManager.executeFuel, PgManager.fetchStep,
        PgManager.reset, PgManager.close, PgManager.connect, PgManager.connectFuel,
        PgManager.cursor, h2, h3, h4, h5, LIMIT_RETRIES]

/-- C2 witness: the amended behavior at concrete inputs: first-attempt
success returns the fetched row; retry-then-success returns the empty
fetch. -/
theorem c2_execute_return_amended_witness :
    (PgManager.execute envRows stOpen "q" 0 true).2 = .ok (.one (some 3))
    ∧ (PgManager.execute envExecSecond stOpen "q" 0 false).2 = .ok (.all []) := by
  have h1 := c2_execute_return_amended.1 envRows stOpen "q" true cur0 [3] rfl rfl rfl
  have h2 := c2_execute_return_amended.2 envExecSecond stOpen "q" false cur0 [7, 8]
    rfl rfl rfl rfl rfl
  exact ⟨by simpa using h1, by simpa using h2⟩


end Pyneed
